import Mathlib

/-!
# Verification of the RasPG framework core (shallow embedding)

This file embeds the core of the RasPG framework — the event bus, the
context stack, the entity/component registry, serialization and the
template engine — as executable Lean definitions translated from the
JavaScript source, and proves or refutes the specification's claims
about them.

Modelling conventions, chosen once for the whole file:

* JavaScript runtime values relevant to the claims are modelled by the
  inductive `JSVal` (numbers as `Int`: the claims only compare values for
  order and strict equality, never use non-integral arithmetic).
* JavaScript exceptions are modelled explicitly.  An operation that can
  throw returns either an `Except` value or a pair of the mutated state
  and an `Option JSErr`: the latter is used where the source mutates
  state *before* throwing, so that the persisting mutation is visible.
* `HookModule.run` calls are omitted from the embedded operations: the
  hook table can only be populated through `HookModule.attach`, whose
  body `this.#hooks.get(hook) ?? this.#hooks.set(hook, new Set()).add(callback)`
  never adds a callback (`Map.prototype.set` returns the map, which has
  no `add`), so `run` finds no callbacks and is a pure logging no-op.
* `console` logging is ignored throughout (pure observational output).
* Callbacks are identified by a numeric token (`Nat`): listener dispatch
  is modelled by the *sequence of callback tokens invoked*, which is what
  the claims quantify over.  Entities used as listener owners are
  identified by their id string.
-/

namespace RasPG

/-- JavaScript exceptions distinguished by the embedded code. -/
inductive JSErr where
  /-- A built-in `TypeError` (calling a non-function, reading a property
  of `undefined`, ...). -/
  | typeError
  /-- `RasPG.dev.exceptions.ObjectIDConflict` -/
  | objectIDConflict
  /-- `RasPG.dev.exceptions.GeneralIDConflict` -/
  | generalIDConflict
  /-- `RasPG.dev.exceptions.NotComponent` -/
  | notComponent
  /-- `RasPG.dev.exceptions.DeserializerMissingComponent` -/
  | deserializerMissingComponent
  /-- Exhaustion of the recursion-fuel parameter used to embed the
  source's unbounded recursion; corresponds to a JavaScript stack
  overflow and never occurs on runs that terminate in JavaScript. -/
  | stackOverflow
  deriving Repr, DecidableEq

/-- JavaScript values, restricted to the shapes the claims exercise.
Numbers are modelled as integers (`previous`/`current` in the claims are
compared, never computed with), objects by an identity token. -/
inductive JSVal where
  | num (n : Int)
  | bool (b : Bool)
  | str (s : String)
  | undef
  | null
  | obj (ref : Nat)
  deriving Repr, DecidableEq

namespace JSVal

/-- `typeof v === 'number'` -/
def isNum : JSVal → Bool
  | num _ => true
  | _ => false

/-- `typeof v === 'boolean'` -/
def isBool : JSVal → Bool
  | bool _ => true
  | _ => false

/-- `typeof v === 'string'` -/
def isStr : JSVal → Bool
  | str _ => true
  | _ => false

/-- JavaScript `ToNumber`, returning `none` for NaN.  String parsing is
modelled for the empty string and plain digit strings only; other
strings (never used by any theorem below) are mapped to NaN. -/
def toNum : JSVal → Option Int
  | num n => some n
  | bool b => some (if b then 1 else 0)
  | null => some 0
  | undef => none
  | str s =>
      if s.data = [] then some 0
      else if s.data.all (fun c => '0' ≤ c ∧ c ≤ '9') then
        some (s.data.foldl (fun acc c => acc * 10 + (c.toNat - 48 : Int)) 0)
      else none
  | obj _ => none

/-- The JavaScript abstract relational comparison `a < b`: both strings
compare lexicographically, otherwise both are converted with `ToNumber`
and any NaN makes the comparison false. -/
def jsLt (a b : JSVal) : Bool :=
  match a, b with
  | str x, str y => x < y
  | _, _ =>
      match a.toNum, b.toNum with
      | some x, some y => x < y
      | _, _ => false

/-- JavaScript `a > b` evaluates the relational comparison `b < a`. -/
def jsGt (a b : JSVal) : Bool := jsLt b a

/-- JavaScript strict equality `===` on the modelled values (objects
compare by identity token; no NaN arises among the modelled numbers). -/
def jsEq (a b : JSVal) : Bool := a == b

end JSVal

/-! ## EventModule

Embedding of the `EventModule` static class (`src/unnamed/part_005`,
lines 679-836).  The private listener table
`Map<string, Set<{event, callback, owner, once}>>` is modelled as an
insertion-ordered association list from the literal pattern string to
the insertion-ordered list of listener records. -/

/-- A listener record, as stored by `EventModule.on`:
`{ event, callback, owner: options.owner || undefined, once: options.once || false }`.
The callback is identified by a token, the owner by an entity id. -/
structure Listener where
  event : String
  callback : Nat
  owner : Option String
  once : Bool
  deriving Repr, DecidableEq

/-- The listener table `EventModule.#listeners` (insertion-ordered map). -/
abbrev ListenerTable := List (String × List Listener)

namespace EventModule

/-- `Map.prototype.get` on the listener table. -/
def lookup (tbl : ListenerTable) (event : String) : Option (List Listener) :=
  (tbl.find? (fun e => e.1 == event)).map (·.2)

/-- `Map.prototype.has` on the listener table. -/
def hasKey (tbl : ListenerTable) (event : String) : Bool :=
  (lookup tbl event).isSome

/-- `Map.prototype.set` on the listener table: replaces in place when the
key exists, otherwise appends. -/
def setKey (tbl : ListenerTable) (event : String) (l : List Listener) : ListenerTable :=
  match tbl with
  | [] => [(event, l)]
  | (k, v) :: rest =>
      if k == event then (k, l) :: rest else (k, v) :: setKey rest event l

/-- Options object of `EventModule.on`. -/
structure OnOptions where
  owner : Option String := none
  once : Bool := false
  deriving Repr, DecidableEq

/-- `EventModule.on(event, callback, options)` (part_005 lines 698-705).
The body is the single statement

`this.#listeners.get(event) ?? this.#listeners.set(event, new Set()).add({...})`

whose `.add` is chained onto the result of `Map.prototype.set` — the map
itself.  When the key is already present, `??` short-circuits and the
whole right-hand side (including `.add`) is never evaluated, so nothing
is stored; when it is absent, an empty `Set` is stored under the key and
the subsequent `.add` call on the *map* throws a `TypeError`
(`Map.prototype.add` is `undefined`).  The result pairs the table as
mutated so far with the exception, if one is thrown. -/
def jsOn (tbl : ListenerTable) (event : String) (_callback : Nat) (_options : OnOptions) :
    ListenerTable × Option JSErr :=
  match lookup tbl event with
  | some _ => (tbl, none)
  | none => (setKey tbl event [], some .typeError)

/-- Tokens of the regular expressions `emit` builds from a pattern.
`replaceAll('.', '\.')` in the source is a no-op (the string `'\.'` is
just `'.'`), so every dot of the pattern stays an *unescaped* regex dot,
matching any single character. -/
inductive Tok where
  /-- a literal character of the pattern -/
  | lit (c : Char)
  /-- an unescaped `.`: matches any one character -/
  | anyChar
  /-- `.*?`, produced from `**`: matches any (possibly empty) string -/
  | lazyStar
  /-- `[^.]*`, produced from each single `*`: matches any run of
  non-dot characters, including the empty run -/
  | nonDotStar
  deriving Repr, DecidableEq

/-- Compile the regex of the `'**'` branch of `emit`:
`'^' + e.replaceAll('.', '\.').replaceAll('**', '.*?') + '$'`.
`replaceAll('**', ...)` consumes stars pairwise left to right; a
leftover lone `*` would act as a regex quantifier — no pattern used by
the spec or the theorems below produces one, and it is modelled as a
literal star. -/
def compileStarStar : List Char → List Tok
  | [] => []
  | '*' :: '*' :: rest => .lazyStar :: compileStarStar rest
  | '.' :: rest => .anyChar :: compileStarStar rest
  | c :: rest => .lit c :: compileStarStar rest

/-- Compile the regex of the `'*'` branch of `emit`:
`'^' + e.replaceAll('.', '\.').replaceAll('*', '[^.]*') + '$'`.
Every single star becomes `[^.]*` (so `**` becomes `[^.]*[^.]*`). -/
def compileStar : List Char → List Tok
  | [] => []
  | '*' :: rest => .nonDotStar :: compileStar rest
  | '.' :: rest => .anyChar :: compileStar rest
  | c :: rest => .lit c :: compileStar rest

/-- Whether the token list matches the whole character list (the built
regexes are anchored with `^...$`), with a structural fuel parameter:
every recursive call shrinks the combined length of the two lists, so
the fuel `toksMatch` passes (combined length + 1) is never exhausted and
the `false` of the fuel-0 branch is unreachable.  Laziness/greediness
only affects which match is chosen, not whether one exists, so both
star tokens are matched by plain disjunction. -/
def toksMatchF : Nat → List Tok → List Char → Bool
  | 0, _, _ => false
  | _ + 1, [], s => s.isEmpty
  | f + 1, .lit c :: ts, s =>
      match s with
      | [] => false
      | d :: ds => c == d && toksMatchF f ts ds
  | f + 1, .anyChar :: ts, s =>
      match s with
      | [] => false
      | _ :: ds => toksMatchF f ts ds
  | f + 1, .lazyStar :: ts, s =>
      toksMatchF f ts s ||
        (match s with
          | [] => false
          | _ :: ds => toksMatchF f (.lazyStar :: ts) ds)
  | f + 1, .nonDotStar :: ts, s =>
      toksMatchF f ts s ||
        (match s with
          | [] => false
          | d :: ds => d != '.' && toksMatchF f (.nonDotStar :: ts) ds)

/-- Anchored match of a compiled pattern against a string. -/
def toksMatch (ts : List Tok) (s : List Char) : Bool :=
  toksMatchF (ts.length + s.length + 1) ts s

/-- Auxiliary for `includes`: whether `sub` occurs contiguously in `l`. -/
def isInfix (sub : List Char) : List Char → Bool
  | [] => sub.isEmpty
  | c :: rest => sub.isPrefixOf (c :: rest) || isInfix sub rest

/-- `e.includes(sub)` — contiguous substring test. -/
def includes (e sub : String) : Bool := isInfix sub.data e.data

/-- The dispatch loop of `emit`: invokes each snapshotted listener in
order; after a `once` listener fires, `listeners.delete(listener)` is a
`TypeError` (arrays have no `delete` method), aborting the loop. -/
def dispatch : List Listener → List Nat × Option JSErr
  | [] => ([], none)
  | l :: ls =>
      if l.once then ([l.callback], some .typeError)
      else
        let r := dispatch ls
        (l.callback :: r.1, r.2)

/-- `EventModule.emit(event, data)` (part_005 lines 736-761), as the pair
of the sequence of callback tokens invoked (in order) and the exception
thrown, if any.  Faithful points:

* if the table has no entry under the exact literal `event`, `emit`
  returns before any wildcard matching (`if (!this.#listeners.has(event)) return`);
* the dispatch list starts as a snapshot (`Array.from`) of the literal
  entry and is extended, per table entry in order, by the `'**'` branch
  and then by the `'*'` branch — an entry whose key contains `**`
  satisfies both `includes` tests and can be appended twice;
* after invoking a listener with `once` set, `listeners.delete(listener)`
  is called on the snapshot *array*, which has no `delete` method: a
  `TypeError` is thrown and the listener table itself is never changed.
-/
def emit (tbl : ListenerTable) (event : String) : List Nat × Option JSErr :=
  match lookup tbl event with
  | none => ([], none)
  | some exact =>
      let extra := tbl.foldl (fun acc (entry : String × List Listener) =>
        let acc := if includes entry.1 "**" &&
            toksMatch (compileStarStar entry.1.data) event.data then acc ++ entry.2 else acc
        if includes entry.1 "*" &&
            toksMatch (compileStar entry.1.data) event.data then acc ++ entry.2 else acc) []
      dispatch (exact ++ extra)

/-- Options object of `EventModule.off`. -/
structure OffOptions where
  owner : Option String := none
  once : Bool := false
  deriving Repr, DecidableEq

/-- Result of `EventModule.off`: the early `return false` sentinel or the
count of removed listeners. -/
inductive OffResult where
  | retFalse
  | removed (n : Nat)
  deriving Repr, DecidableEq

/-- The filtering loop of `off`: iterates the listener set in insertion
order, removing (and counting) every listener whose callback matches and
which passes the owner/once filters.  `options` is only dereferenced
after `listener.callback === callback` holds (`&&` short-circuits), so a
missing options object (`none`) throws a `TypeError` exactly when a
callback-matching listener is reached. -/
def offFilter (cb : Nat) (options : Option OffOptions) :
    List Listener → (List Listener × Nat) × Option JSErr
  | [] => (([], 0), none)
  | l :: ls =>
      if l.callback == cb then
        match options with
        | none => ((l :: ls, 0), some .typeError)
        | some o =>
            if (o.owner.isNone || l.owner == o.owner) &&
               (!o.once || l.once == o.once) then
              let r := offFilter cb options ls
              ((r.1.1, r.1.2 + 1), r.2)
            else
              let r := offFilter cb options ls
              ((l :: r.1.1, r.1.2), r.2)
      else
        let r := offFilter cb options ls
        ((l :: r.1.1, r.1.2), r.2)

/-- `EventModule.off(event, callback, options)` (part_005 lines 711-731).
The third parameter is `none` when the call site passes no options
object.  Returns the table as mutated when the call completes or
throws. -/
def off (tbl : ListenerTable) (event : String) (cb : Nat) (options : Option OffOptions) :
    ListenerTable × OffResult × Option JSErr :=
  match lookup tbl event with
  | none => (tbl, .retFalse, none)
  | some ls =>
      let r := offFilter cb options ls
      (setKey tbl event r.1.1, .removed r.1.2, r.2)

/-- The string a template literal produces for an interpolated value that
may be `undefined`: `` `${prefix}` `` yields `"undefined"` when `prefix`
is not passed. -/
def pfxString : Option String → String
  | some s => s
  | none => "undefined"

/-- `EventModule.emitPropertyEvents(data, prefix)` (part_005 lines
778-835) as the ordered list of event names emitted.  The body parses as:

1. always emit `` `${prefix}${property}.set` ``;
2. emit `...changed.not` when `previous === current`, else `...changed`;
3. `if (number && number) { if (current > previous) emit increased }` —
   the `increased` check is the *whole* body of the numeric guard;
4. `if (current < previous) emit decreased else if (boolean && boolean)
   { emit toggled.not / toggled }` — this statement is *not* under the
   numeric guard (the `else` of step 4 binds to this `if`, not to step
   3's guard), so `decreased` fires for any values with
   `current < previous`, and the boolean branch is skipped whenever
   `current < previous` holds. -/
def emitPropertyEvents (property : String) (previous current : JSVal)
    (pfx : Option String) : List String :=
  let p := pfxString pfx ++ property
  [p ++ ".set"] ++
  (if JSVal.jsEq previous current then [p ++ ".changed.not"] else [p ++ ".changed"]) ++
  (if previous.isNum && current.isNum && JSVal.jsGt current previous
    then [p ++ ".increased"] else []) ++
  (if JSVal.jsLt current previous then [p ++ ".decreased"]
   else if previous.isBool && current.isBool then
     (if JSVal.jsEq previous current then [p ++ ".toggled.not"] else [p ++ ".toggled"])
   else [])

end EventModule

/-! ## ContextModule

Embedding of the context stack (`src/unnamed/part_005` lines 870-957).
The private `#context` plain object is an insertion-ordered map from
label to the LIFO array of values (`push` unshifts, so the head is the
top). -/

abbrev Context := List (String × List JSVal)

namespace ContextModule

/-- `label in this.#context` / `this.#context[label]`. -/
def lookup (ctx : Context) (label : String) : Option (List JSVal) :=
  (ctx.find? (fun e => e.1 == label)).map (·.2)

/-- Assignment `this.#context[label] = v` (replace in place or append). -/
def setLabel (ctx : Context) (label : String) (v : List JSVal) : Context :=
  match ctx with
  | [] => [(label, v)]
  | (k, x) :: rest =>
      if k == label then (k, v) :: rest else (k, x) :: setLabel rest label v

/-- `delete this.#context[label]`. -/
def deleteLabel (ctx : Context) (label : String) : Context :=
  ctx.filter (fun e => e.1 != label)

/-- `ContextModule.push(objects)` (part_005 lines 895-907): unshifts each
value onto its label's stack, creating the stack when absent. -/
def push (ctx : Context) (objects : List (String × JSVal)) : Context :=
  objects.foldl (fun ctx kv =>
    match lookup ctx kv.1 with
    | some stack => setLabel ctx kv.1 (kv.2 :: stack)
    | none => setLabel ctx kv.1 [kv.2]) ctx

/-- `ContextModule.pop(labels)` (part_005 lines 919-936).  For each
label: when present, `shift()` removes the top value, then the stack is
deleted if its length is `0`; when absent, the failure counter is
incremented — but the following unconditional length check
`this.#context[label].length === 0` then reads `length` of `undefined`
and throws a `TypeError`.  Returns the context as mutated so far, the
failure count accumulated so far, and the exception, if any (when an
exception is thrown the count is lost to the caller). -/
def pop : Context → List String → Context × Nat × Option JSErr
  | ctx, [] => (ctx, 0, none)
  | ctx, label :: rest =>
      match lookup ctx label with
      | some stack =>
          let ctx := setLabel ctx label stack.tail
          let ctx := if stack.tail.isEmpty then deleteLabel ctx label else ctx
          let r := pop ctx rest
          (r.1, r.2.1, r.2.2)
      | none => (ctx, 1, some .typeError)

end ContextModule

/-! ## Component and entity model

Embedding of `Component`, `GameObject` and `RegistryBase`
(`src/unnamed/part_005` lines 1365-1719).  A component type holds the
static fields of a `Component` subclass; a component instance's own
state is modelled as an `Int` and its serialized interchange value as an
`Int` as well.  The source's `requires` arrays hold component *class
references*; classes are identified here by their registered names and
resolved through the component registry, exactly as `Component.resolve`
does for its string case (every component type of the repository is
registered through `RasPG.registerComponent`). -/

/-- Static fields of a `Component` subclass.  `serializer` maps instance
state to interchange data; `deserializer` receives the stored interchange
value — `none` standing for the `false` sentinel that
`Component.instance.serialize` stores for a serializer-less type — and
rebuilds instance state. -/
structure CompType where
  name : String
  reference : Option String := none
  requires : List String := []
  defaultState : Int := 0
  serializer : Option (Int → Int) := none
  deserializer : Option (Option Int → Int) := none

/-- The argument of `GameObject.instance.addComponent`: a component
type/class reference (or its registered name — both resolve through the
registry) or a live instance. -/
inductive CompRef where
  | byName (n : String)
  | byInstance (t : CompType) (st : Int)

/-- `RasPG.runtime.components` (insertion-ordered map). -/
abbrev CompRegistry := List (String × CompType)

/-- A `GameObject`: id, tag set (insertion-ordered), component map
(instance type → instance state, insertion-ordered as a JS `Map`), and
the accessor fields dynamically bound by attached components. -/
structure Entity where
  id : String
  tags : List String := []
  comps : List (CompType × Int) := []
  accessors : List (String × String) := []

/-- `GameObject._all` (insertion-ordered map id → entity). -/
abbrev GORegistry := List (String × Entity)

/-- Lookup in the component registry (`RasPG.runtime.components.get`). -/
def lookupComp (creg : CompRegistry) (n : String) : Option CompType :=
  (creg.find? (fun e => e.1 == n)).map (·.2)

/-- Lookup in the entity registry (`GameObject._all.get` / `.has`). -/
def lookupGO (reg : GORegistry) (id : String) : Option Entity :=
  (reg.find? (fun e => e.1 == id)).map (·.2)

/-- `Map.prototype.set` on the entity registry. -/
def setGO (reg : GORegistry) (id : String) (e : Entity) : GORegistry :=
  match reg with
  | [] => [(id, e)]
  | (k, v) :: rest =>
      if k == id then (k, e) :: rest else (k, v) :: setGO rest id e

namespace GameObject

/-- `this._components.has(name)` (as used through `hasComponent`). -/
def hasComp (e : Entity) (n : String) : Bool :=
  e.comps.any (fun p => p.1.name == n)

/-- `this._components.delete(name)`. -/
def eraseComp (e : Entity) (n : String) : Entity :=
  { e with comps := e.comps.filter (fun p => p.1.name != n) }

/-- `this._components.set(name, instance)`: replaces in place when the
type is already present, otherwise appends (JS `Map` insertion order). -/
def setCompList (l : List (CompType × Int)) (t : CompType) (st : Int) :
    List (CompType × Int) :=
  match l with
  | [] => [(t, st)]
  | (t', s') :: rest =>
      if t'.name == t.name then (t, st) :: rest else (t', s') :: setCompList rest t st

/-- Store a component instance on the entity. -/
def setComp (e : Entity) (t : CompType) (st : Int) : Entity :=
  { e with comps := setCompList e.comps t st }

/-- `GameObject.instance.tag(tag)` (part_005 lines 1647-1658): adds the
tag to the set, returning whether the set changed. -/
def tag (e : Entity) (t : String) : Entity × Bool :=
  if e.tags.contains t then (e, false)
  else ({ e with tags := e.tags ++ [t] }, true)

/-- `GameObject.instance.isTagged(tag)`. -/
def isTagged (e : Entity) (t : String) : Bool := e.tags.contains t

/-- Assignment of an assoc entry (plain-object property write). -/
def setAssoc (l : List (String × String)) (k v : String) : List (String × String) :=
  match l with
  | [] => [(k, v)]
  | (k', v') :: rest =>
      if k' == k then (k', v) :: rest else (k', v') :: setAssoc rest k v

/-- The accessor-binding tail of `addComponent` (part_005 lines
1598-1601).  The assignment `this[instance.constructor.reference] = instance`
is *not* under the `if (instance.constructor.reference)` guard (that
guard's body is only the collision-warning `if`), so a type without a
reference stores the instance under the literal property name
`"undefined"`. -/
def bindReference (e : Entity) (t : CompType) : Entity :=
  { e with accessors := setAssoc e.accessors (t.reference.getD "undefined") t.name }

/-- `GameObject.instance.hasComponent(component)` (part_005 lines
1635-1643): resolves the reference (`NotComponent` when a name is not
registered) and checks the component map under the resolved type name. -/
def hasComponent (creg : CompRegistry) (e : Entity) (c : CompRef) : Except JSErr Bool :=
  match c with
  | .byInstance t _ => .ok (hasComp e t.name)
  | .byName n =>
      match lookupComp creg n with
      | some t => .ok (hasComp e t.name)
      | none => .error .notComponent

/-- The instance-resolution head of `addComponent` (part_005 lines
1577-1586): a live instance is taken as is; a type/class reference or
registered name goes through `Component.resolve` (throwing
`NotComponent` when it does not resolve) and is instantiated with
`new actualComponent()`, i.e. the type's default state. -/
def resolveInstance (creg : CompRegistry) : CompRef → Except JSErr (CompType × Int)
  | .byInstance t st => .ok (t, st)
  | .byName n =>
      match lookupComp creg n with
      | some t => .ok (t, t.defaultState)
      | none => .error .notComponent

/-- The `for (const requirement of instance.constructor.requires)
this.addComponent(requirement)` loop of `addComponent`, parameterized by
the attachment step so that `addComponent` can recurse through it
structurally on its fuel. -/
def addRequiresWith (step : Entity → String → Except JSErr (Entity × Bool)) :
    Entity → List String → Except JSErr Entity
  | ent, [] => .ok ent
  | ent, r :: rs =>
      match step ent r with
      | .error err => .error err
      | .ok (ent', _) => addRequiresWith step ent' rs

/-- `GameObject.instance.addComponent(component)` (part_005 lines
1574-1605), with a fuel parameter standing for the JavaScript call stack
(`.stackOverflow` models non-termination on cyclic dependency graphs and
never occurs on a run that terminates in JavaScript).  Steps, in source
order: resolve the argument to an instance (`new actualComponent()` for
a type, i.e. the type's default state); when the runtime inner state is
`'instantiating'`, delete any already-attached instance of the type;
return `false` when the type is (still) attached; recursively attach
every declared dependency; store the instance under its type name; bind
the accessor reference.  The `instance.parent = this` back-reference is
the owning entity itself and needs no separate representation. -/
def addComponent : Nat → Option String → CompRegistry → Entity → CompRef →
    Except JSErr (Entity × Bool)
  | 0, _, _, _, _ => .error .stackOverflow
  | fuel + 1, inner, creg, ent, c =>
      match resolveInstance creg c with
      | .error err => .error err
      | .ok (t, st) =>
          let ent := if inner == some "instantiating" then eraseComp ent t.name else ent
          if hasComp ent t.name then
            .ok (ent, false)
          else
            match addRequiresWith
                (fun e r => addComponent fuel inner creg e (.byName r)) ent t.requires with
            | .error err => .error err
            | .ok ent => .ok (bindReference (setComp ent t st) t, true)

/-- The dependency loop at a given fuel level (the form the lemmas below
speak about; `addComponent (fuel + 1)` runs exactly this at fuel
`fuel`). -/
def addRequires (fuel : Nat) (inner : Option String) (creg : CompRegistry) :
    Entity → List String → Except JSErr Entity :=
  addRequiresWith (fun e r => addComponent fuel inner creg e (.byName r))

end GameObject

/-- The serialized shape built by `GameObject.serializer` (part_005
lines 1464-1474): `{class, id, tags, components}`.  Note the source adds
the `class` field on top of the `{id, tags, components}` shape the spec
describes.  A `none` component entry is the `false` sentinel that
`Component.instance.serialize` returns (and `GameObject.serializer`
stores) for a type without a serializer. -/
structure SerEntity where
  cls : String
  id : String
  tags : List String
  comps : List (String × Option Int)
  deriving Repr, DecidableEq

namespace GameObject

/-- `GameObject.serializer(object)` (part_005 lines 1464-1474): collects
`class`, `id`, `Array.from(object.tags)` and, per attached component in
map order, `instance.serialize()` — the type's own serializer applied to
the instance state, or the logged `false` sentinel (`none`) for a type
without one. -/
def serializer (e : Entity) : SerEntity :=
  { cls := "GameObject"
    id := e.id
    tags := e.tags
    comps := e.comps.map (fun p => (p.1.name, p.1.serializer.map (· p.2))) }

/-- Options object of the `GameObject` constructor.  `register` is
`options?.register !== false`; absent `tags`/`components` behave as the
empty lists.  Extra properties of the options object (such as the
`class` and `id` fields the deserializer passes along) are ignored by
`validate.props`, which checks only the declared keys. -/
structure GOOptions where
  tags : List String := []
  components : List CompRef := []
  register : Bool := true

/-- The `addComponents(...)` loop of the constructor: attaches each
component in order, discarding the per-component result. -/
def addComps (fuel : Nat) (inner : Option String) (creg : CompRegistry) :
    Entity → List CompRef → Except JSErr Entity
  | ent, [] => .ok ent
  | ent, c :: cs =>
      match addComponent fuel inner creg ent c with
      | .error err => .error err
      | .ok (ent', _) => addComps fuel inner creg ent' cs

/-- `new GameObject(id, options)` (part_005 lines 1497-1525): after the
(pure) validations, throws `ObjectIDConflict` when `id` is already
registered — before any state is touched — then sets the id, adds the
tags in order, attaches the components in order (`addComponents`
propagates any exception) and finally registers the entity unless
`register` is strictly `false`.  Returns the updated registry and the
constructed entity. -/
def construct (fuel : Nat) (inner : Option String) (creg : CompRegistry)
    (reg : GORegistry) (id : String) (options : GOOptions) :
    Except JSErr (GORegistry × Entity) :=
  if (lookupGO reg id).isSome then
    .error .objectIDConflict
  else
    let ent : Entity := { id := id }
    let ent := options.tags.foldl (fun e t => (tag e t).1) ent
    match addComps fuel inner creg ent options.components with
    | .error err => .error err
    | .ok ent => .ok (if options.register then setGO reg id ent else reg, ent)

/-- `GameObject.deserializer(data)` (part_005 lines 1475-1486): builds a
fresh entity via the constructor — passing the serialized tags and the
component *names* (`Object.keys(components)`), which attaches
default-state instances — then, for each serialized component entry in
order, resolves the type from the component registry (throwing
`DeserializerMissingComponent` when unknown), calls the type's
deserializer on the stored data (calling an absent deserializer is a
`TypeError`) and hands the rebuilt instance to `addComponent`.  The
constructor registered the object before this loop; since the registry
holds the very object being mutated, the final entity is written back
at the end.  `desComps` is the per-component reconstruction loop. -/
def desComps (fuel : Nat) (inner : Option String) (creg : CompRegistry) :
    Entity → List (String × Option Int) → Except JSErr Entity
  | ent, [] => .ok ent
  | ent, (nm, data) :: rest =>
      match lookupComp creg nm with
      | none => .error .deserializerMissingComponent
      | some t =>
          match t.deserializer with
          | none => .error .typeError
          | some f =>
              match addComponent fuel inner creg ent (.byInstance t (f data)) with
              | .error err => .error err
              | .ok (ent', _) => desComps fuel inner creg ent' rest

/-- `GameObject.deserializer(data)` (see the comment on `desComps`). -/
def deserializer (fuel : Nat) (inner : Option String) (creg : CompRegistry)
    (reg : GORegistry) (d : SerEntity) : Except JSErr (GORegistry × Entity) :=
  match construct fuel inner creg reg d.id
      { tags := d.tags, components := d.comps.map (fun p => CompRef.byName p.1) } with
  | .error err => .error err
  | .ok (reg, ent) =>
      match desComps fuel inner creg ent d.comps with
      | .error err => .error err
      | .ok ent => .ok (setGO reg d.id ent, ent)

end GameObject

/-! ## TemplateModule

Embedding of `TemplateModule` (`src/unnamed/part_005` lines 1247-1302)
together with the runtime pieces it touches: the entity registry and the
`RasPG.runtime.state.inner` value stack (a list whose head is the top,
initially `["initializing"]`; `get()` is `stack.at(0) || undefined`). -/

/-- The decimal digit character of `n % 10` (JS number-to-string). -/
def digitChar (n : Nat) : Char :=
  match n % 10 with
  | 0 => '0' | 1 => '1' | 2 => '2' | 3 => '3' | 4 => '4'
  | 5 => '5' | 6 => '6' | 7 => '7' | 8 => '8' | _ => '9'

/-- Decimal digits of `n`, most significant first, prepended to `acc`,
with a structural fuel parameter: `n` shrinks by a factor of ten per
step, so the fuel `natStr` passes (`n + 1`) is never exhausted and the
fuel-0 branch is unreachable. -/
def natCharsF : Nat → Nat → List Char → List Char
  | 0, _, acc => acc
  | f + 1, n, acc =>
      if n < 10 then digitChar n :: acc
      else natCharsF f (n / 10) (digitChar n :: acc)

/-- JavaScript decimal stringification of a non-negative integer, as in
`'__i' + registered.instances`. -/
def natStr (n : Nat) : String := ⟨natCharsF (n + 1) n []⟩

/-- Decimal digit test (`\d` of the restore regex). -/
def isDigitC (c : Char) : Bool := '0' ≤ c && c ≤ '9'

/-- Whether the regex `/__i\d+$/` matches at the start of `l` — that is,
`l` is `__i` followed by one or more digits running to the end. -/
def matchesSuffixAt (l : List Char) : Bool :=
  match l with
  | a :: b :: c :: rest =>
      a == '_' && b == '_' && c == 'i' && !rest.isEmpty && rest.all isDigitC
  | _ => false

/-- `String.replace` with `/__i\d+$/` and the empty replacement:
returns the characters before the leftmost match, or `none` when the
regex does not match anywhere. -/
def stripAux : List Char → Option (List Char)
  | [] => none
  | c :: rest =>
      if matchesSuffixAt (c :: rest) then some []
      else (stripAux rest).map (c :: ·)

/-- `id.replace(/__i\d+$/, '')` (the restore step of
`TemplateModule.instantiate`). -/
def stripInstanceSuffix (s : String) : String :=
  match stripAux s.data with
  | some pre => ⟨pre⟩
  | none => s

/-- A template record (part_005 line 1248): the name, the one-time
serialized snapshot and the instantiation counter.  The stored
`constructor` field is the `GameObject` class itself for every entity
modelled here, so it needs no representation. -/
structure Template where
  name : String
  serialized : SerEntity
  instances : Nat

/-- `TemplateModule.#all` (insertion-ordered map name → record). -/
abbrev TemplateRegistry := List (String × Template)

/-- Lookup in the template registry. -/
def lookupTpl (tr : TemplateRegistry) (n : String) : Option Template :=
  (tr.find? (fun e => e.1 == n)).map (·.2)

/-- `Map.prototype.set` on the template registry. -/
def setTpl (tr : TemplateRegistry) (n : String) (t : Template) : TemplateRegistry :=
  match tr with
  | [] => [(n, t)]
  | (k, v) :: rest =>
      if k == n then (k, t) :: rest else (k, v) :: setTpl rest n t

/-- The runtime state the template engine operates on: the entity
registry, the template registry, the component registry and the
`runtime.state.inner` value stack. -/
structure RState where
  reg : GORegistry := []
  templates : TemplateRegistry := []
  creg : CompRegistry := []
  inner : List String := ["initializing"]

/-- `RasPG.runtime.state.inner.get()`: `stack.at(0) || undefined`. -/
def innerGet (stack : List String) : Option String := stack.head?

namespace TemplateModule

/-- `TemplateModule.register(name, object)` (part_005 lines 1287-1301):
throws `GeneralIDConflict` on a taken name, otherwise serializes the
entity once (under a pushed-and-popped `'serializing'` inner state,
which the pure serializer does not consult) and stores the record with a
zero counter. -/
def register (s : RState) (name : String) (object : Entity) : Except JSErr RState :=
  if (lookupTpl s.templates name).isSome then
    .error .generalIDConflict
  else
    let tpl : Template :=
      { name := name, serialized := GameObject.serializer object, instances := 0 }
    .ok { s with templates := setTpl s.templates name tpl }

/-- The result of `TemplateModule.instantiate`: the new entity, or the
`false` sentinel logged and returned for an unknown template name. -/
inductive InstResult where
  | entity (e : Entity)
  | notFound

/-- `TemplateModule.instantiate(name)` (part_005 lines 1258-1282),
faithfully step by step:

1. unknown name: log and return `false` (no exception);
2. push `'instantiating'` onto the inner state stack;
3. `registered.serialized.id += '__i' + registered.instances++` — the
   *stored* snapshot's id is mangled in place and the counter advanced;
4. deserialize the mutated snapshot into a brand-new registered entity
   (any exception — e.g. an id conflict with an already-registered
   entity — propagates, *leaving the snapshot id mangled, the counter
   advanced and the `'instantiating'` state pushed*; the `Except` error
   carries no state, matching the claims, which only concern the
   returned value in that case);
5. tag the new entity with `'TEMPLATE:' + name` (the registry holds the
   same object, so the write-back keeps them identical);
6. restore the snapshot id with `id.replace(/__i\d+$/, '')`;
7. pop the inner state stack;
8. emit `'template.instantiated'` — a no-op on the listener table the
   broken `EventModule.on` leaves (no record is ever stored), hence not
   represented. -/
def instantiate (fuel : Nat) (s : RState) (name : String) :
    Except JSErr (RState × InstResult) :=
  match lookupTpl s.templates name with
  | none => .ok (s, .notFound)
  | some tpl =>
      let s := { s with inner := "instantiating" :: s.inner }
      let mangled := tpl.serialized.id ++ "__i" ++ natStr tpl.instances
      let tpl := { tpl with
        serialized := { tpl.serialized with id := mangled }
        instances := tpl.instances + 1 }
      let s := { s with templates := setTpl s.templates name tpl }
      match GameObject.deserializer fuel (innerGet s.inner) s.creg s.reg tpl.serialized with
      | .error err => .error err
      | .ok (reg, inst) =>
          let inst := (GameObject.tag inst ("TEMPLATE:" ++ name)).1
          let s := { s with reg := setGO reg inst.id inst }
          let tpl := { tpl with
            serialized := { tpl.serialized with id := stripInstanceSuffix mangled } }
          let s := { s with templates := setTpl s.templates name tpl }
          let s := { s with inner := s.inner.tail }
          .ok (s, .entity inst)

end TemplateModule

/-! ## Concrete inputs used by the claim theorems and witnesses -/

/-- A listener stored under the wildcard pattern `stats.*.changed`. -/
def starListener : Listener := { event := "stats.*.changed", callback := 7, owner := none, once := false }

/-- A listener stored under the wildcard pattern `stats.**.changed`. -/
def dstarListener : Listener := { event := "stats.**.changed", callback := 7, owner := none, once := false }

/-- A one-shot listener stored under the literal name `a`. -/
def onceListener : Listener := { event := "a", callback := 3, owner := none, once := true }

/-- A plain listener with callback token `5` stored under `p`. -/
def plainListener : Listener := { event := "p", callback := 5, owner := none, once := false }

/-- A component type with serializer and deserializer both defined
(mutually inverse on the data the theorems exercise) and default
state `0`. -/
def cntType : CompType :=
  { name := "Cnt", serializer := some (fun x => x), deserializer := some (fun d => d.getD 0) }

/-- A component registry holding `cntType`. -/
def cregC : CompRegistry := [("Cnt", cntType)]

/-- An unregistered entity owning a `Cnt` instance whose state `42`
differs from the type's default. -/
def entC : Entity := { id := "e1", comps := [(cntType, 42)] }

/-- A registered template named `t` whose snapshot has base id `rock`,
no tags and no components, with counter `0`. -/
def rockTpl : Template :=
  { name := "t"
    serialized := { cls := "GameObject", id := "rock", tags := [], comps := [] }
    instances := 0 }

/-- A runtime state holding only the template `t`. -/
def sTpl : RState := { creg := cregC, templates := [("t", rockTpl)] }

/-- The same state with an entity already registered under `rock__i0` —
the id the first instantiation of `t` will try to claim. -/
def sConflict : RState :=
  { creg := cregC, reg := [("rock__i0", { id := "rock__i0" })], templates := [("t", rockTpl)] }

/-- Component type `B` with no dependencies. -/
def depB : CompType := { name := "B" }

/-- Component type `A` requiring `B`. -/
def depA : CompType := { name := "A", requires := ["B"] }

/-- A component registry holding `A` and `B`. -/
def cregAB : CompRegistry := [("A", depA), ("B", depB)]

/-- A fresh entity with no components. -/
def entX : Entity := { id := "x" }

/-- The entity produced by attaching `A` (and hence `B`) to `entX`:
both instances at default state, `B` stored first (dependency-first
order), the accessor slot `"undefined"` holding the latest instance
(the unguarded `this[reference] = instance` assignment). -/
def entXAB : Entity :=
  { id := "x", comps := [(depB, 0), (depA, 0)], accessors := [("undefined", "A")] }

/-! ## Supporting lemmas -/

theorem digitChar_isDigit (n : Nat) : isDigitC (digitChar n) = true := by
  unfold digitChar
  split <;> decide

theorem natCharsF_all_digits : ∀ (f : Nat), ∀ (n : Nat) (acc : List Char),
    (∀ c ∈ acc, isDigitC c = true) → ∀ c ∈ natCharsF f n acc, isDigitC c = true := by
  intro f
  induction f with
  | zero => intro n acc hacc; simpa [natCharsF] using hacc
  | succ f ih =>
      intro n acc hacc c hc
      simp only [natCharsF] at hc
      by_cases h : n < 10
      · rw [if_pos h] at hc
        rcases List.mem_cons.mp hc with h1 | h1
        · exact h1 ▸ digitChar_isDigit n
        · exact hacc c h1
      · rw [if_neg h] at hc
        refine ih (n / 10) _ ?_ c hc
        intro c hc
        rcases List.mem_cons.mp hc with h1 | h1
        · exact h1 ▸ digitChar_isDigit n
        · exact hacc c h1

theorem natCharsF_ne_nil_of_acc : ∀ (f : Nat), ∀ (n : Nat) (acc : List Char),
    acc ≠ [] → natCharsF f n acc ≠ [] := by
  intro f
  induction f with
  | zero => intro n acc h; simpa [natCharsF] using h
  | succ f ih =>
      intro n acc h
      simp only [natCharsF]
      by_cases hn : n < 10
      · rw [if_pos hn]; simp
      · rw [if_neg hn]; exact ih (n / 10) _ (by simp)

theorem natStr_ne_nil (k : Nat) : (natStr k).data ≠ [] := by
  show natCharsF (k + 1) k [] ≠ []
  simp only [natCharsF]
  by_cases hk : k < 10
  · rw [if_pos hk]; simp
  · rw [if_neg hk]; exact natCharsF_ne_nil_of_acc k (k / 10) _ (by simp)

theorem natStr_all_digits (k : Nat) : (natStr k).data.all isDigitC = true :=
  List.all_eq_true.mpr (natCharsF_all_digits (k + 1) k [] (by simp))

theorem stripAux_append (d : List Char) (hne : d ≠ []) (hd : d.all isDigitC = true) :
    ∀ (b : List Char), stripAux (b ++ '_' :: '_' :: 'i' :: d) = some b := by
  intro b
  induction b with
  | nil =>
      have : matchesSuffixAt ('_' :: '_' :: 'i' :: d) = true := by
        simp [matchesSuffixAt, hd, List.isEmpty_eq_false.mpr hne]
      simp [stripAux, this]
  | cons c b' ih =>
      have hm : matchesSuffixAt (c :: (b' ++ '_' :: '_' :: 'i' :: d)) = false := by
        match b' with
        | [] => simp [matchesSuffixAt]
        | [x] => simp [matchesSuffixAt]
        | [x, y] =>
            have : ('_' :: '_' :: 'i' :: d).all isDigitC = false := by
              simp only [List.all_eq_false]
              exact ⟨'_', by simp, by decide⟩
            simp [matchesSuffixAt, this]
        | x :: y :: z :: b'' =>
            have : (z :: (b'' ++ '_' :: '_' :: 'i' :: d)).all isDigitC = false := by
              simp only [List.all_eq_false]
              refine ⟨'_', ?_, by decide⟩
              simp
            simp [matchesSuffixAt, this]
      show stripAux (c :: (b' ++ '_' :: '_' :: 'i' :: d)) = some (c :: b')
      simp [stripAux, hm, ih]

/-- The restore step of `instantiate` undoes the mangling step exactly:
stripping `/__i\d+$/` from `s + '__i' + String(k)` yields `s` again, for
every base id `s` (in particular one that itself ends in an `__i<n>`
suffix — the regex anchors at the end and `replace` takes the leftmost
match, which is always the appended suffix because everything after an
earlier `__i` occurrence would contain the non-digits `_` and `i`). -/
theorem stripInstanceSuffix_mangle (s : String) (k : Nat) :
    stripInstanceSuffix (s ++ "__i" ++ natStr k) = s := by
  have hdata : (s ++ "__i" ++ natStr k).data =
      s.data ++ '_' :: '_' :: 'i' :: (natStr k).data := by
    simp [String.data_append]
  unfold stripInstanceSuffix
  rw [hdata, stripAux_append _ (natStr_ne_nil k) (natStr_all_digits k)]

theorem lookupTpl_setTpl (tr : TemplateRegistry) (n : String) (t : Template) :
    lookupTpl (setTpl tr n t) n = some t := by
  induction tr with
  | nil => simp [setTpl, lookupTpl]
  | cons kv rest ih =>
      obtain ⟨k, v⟩ := kv
      by_cases h : k = n
      · simp [setTpl, lookupTpl, h]
      · have hb : (k == n) = false := beq_false_of_ne h
        simp only [setTpl, hb, if_false]
        simpa [lookupTpl, List.find?, hb] using ih

theorem lookupGO_setGO (reg : GORegistry) (id : String) (e : Entity) :
    lookupGO (setGO reg id e) id = some e := by
  induction reg with
  | nil => simp [setGO, lookupGO]
  | cons kv rest ih =>
      obtain ⟨k, v⟩ := kv
      by_cases h : k = id
      · simp [setGO, lookupGO, h]
      · have hb : (k == id) = false := beq_false_of_ne h
        simp only [setGO, hb, if_false]
        simpa [lookupGO, List.find?, hb] using ih

namespace GameObject

theorem hasComp_eraseComp_self (e : Entity) (n : String) :
    hasComp (eraseComp e n) n = false := by
  simp only [hasComp, eraseComp, List.any_filter]
  rw [List.any_eq_false]
  intro p _
  by_cases h : p.1.name = n <;> simp [h]

theorem hasComp_eraseComp_of (e : Entity) (n m : String) (hne : m ≠ n)
    (h : hasComp e m = true) : hasComp (eraseComp e n) m = true := by
  simp only [hasComp, List.any_eq_true] at h
  obtain ⟨p, hp, hpm⟩ := h
  simp only [hasComp, eraseComp, List.any_filter, List.any_eq_true]
  refine ⟨p, hp, ?_⟩
  have hnm : p.1.name = m := by simpa using hpm
  simp [hnm, hne]

theorem setCompList_any (l : List (CompType × Int)) (t : CompType) (st : Int) (m : String) :
    ((setCompList l t st).any fun p => p.1.name == m) =
      (t.name == m || l.any fun p => p.1.name == m) := by
  induction l with
  | nil => simp [setCompList]
  | cons p rest ih =>
      by_cases h : p.1.name = t.name
      · simp only [setCompList, h, beq_self_eq_true, if_true, List.any_cons]
        rw [← Bool.or_assoc, Bool.or_self]
      · have hb : (p.1.name == t.name) = false := beq_false_of_ne h
        simp only [setCompList, hb, Bool.false_eq_true, if_false, List.any_cons, ih]
        rw [Bool.or_left_comm]

theorem hasComp_setComp (e : Entity) (t : CompType) (st : Int) (m : String) :
    hasComp (setComp e t st) m = (t.name == m || hasComp e m) := by
  simp [hasComp, setComp, setCompList_any]

theorem hasComp_setComp_self (e : Entity) (t : CompType) (st : Int) :
    hasComp (setComp e t st) t.name = true := by
  simp [hasComp_setComp]

theorem hasComp_setComp_of (e : Entity) (t : CompType) (st : Int) (m : String)
    (h : hasComp e m = true) : hasComp (setComp e t st) m = true := by
  simp [hasComp_setComp, h]

theorem hasComp_bindReference (e : Entity) (t : CompType) (m : String) :
    hasComp (bindReference e t) m = hasComp e m := rfl

theorem id_eraseComp (e : Entity) (n : String) : (eraseComp e n).id = e.id := rfl

theorem id_setComp (e : Entity) (t : CompType) (st : Int) : (setComp e t st).id = e.id := rfl

theorem id_bindReference (e : Entity) (t : CompType) : (bindReference e t).id = e.id := rfl

theorem id_tag (e : Entity) (t : String) : ((tag e t).1).id = e.id := by
  unfold tag
  split <;> rfl

theorem isTagged_tag_self (e : Entity) (t : String) :
    isTagged (tag e t).1 t = true := by
  unfold tag isTagged
  split
  · next h => simpa using h
  · simp

theorem hasComp_of_eraseComp (e : Entity) (n m : String)
    (h : hasComp (eraseComp e n) m = true) : hasComp e m = true := by
  simp only [hasComp, eraseComp, List.any_filter, List.any_eq_true] at h ⊢
  obtain ⟨p, hp, hpp⟩ := h
  exact ⟨p, hp, by simpa using (Bool.and_elim_right hpp)⟩

/-- Joint preservation through `addComponent`/`addRequires` (one fuel
induction): a successful call never changes the entity's id or tags and
never (net) removes an attached component type — the `'instantiating'`
delete of the argument's own type is, on the success path, always
followed by re-attachment. -/
theorem addComponent_addRequires_preserve : ∀ (fuel : Nat),
    (∀ inner creg ent c ent' b,
      addComponent fuel inner creg ent c = .ok (ent', b) →
      ent'.id = ent.id ∧ ent'.tags = ent.tags ∧
        ∀ m, hasComp ent m = true → hasComp ent' m = true) ∧
    (∀ inner creg ent rs ent',
      addRequires fuel inner creg ent rs = .ok ent' →
      ent'.id = ent.id ∧ ent'.tags = ent.tags ∧
        ∀ m, hasComp ent m = true → hasComp ent' m = true) := by
  intro fuel
  induction fuel with
  | zero =>
      constructor
      · intro inner creg ent c ent' b h
        simp [addComponent] at h
      · intro inner creg ent rs ent' h
        cases rs with
        | nil =>
            simp only [addRequires, addRequiresWith, Except.ok.injEq] at h
            subst h
            exact ⟨rfl, rfl, fun m hm => hm⟩
        | cons r rs => simp [addRequires, addRequiresWith, addComponent] at h
  | succ f ih =>
      have hP : ∀ inner creg ent c ent' b,
          addComponent (f + 1) inner creg ent c = .ok (ent', b) →
          ent'.id = ent.id ∧ ent'.tags = ent.tags ∧
            ∀ m, hasComp ent m = true → hasComp ent' m = true := by
        intro inner creg ent c ent' b h
        simp only [addComponent] at h
        split at h
        · exact absurd h (by simp)
        next t st hres =>
          set ent₁ := if (inner == some "instantiating") = true
              then eraseComp ent t.name else ent with hent₁
          have h₁id : ent₁.id = ent.id := by
            rw [hent₁]; split <;> rfl
          have h₁tags : ent₁.tags = ent.tags := by
            rw [hent₁]; split <;> rfl
          have h₁pres : ∀ m, m ≠ t.name → hasComp ent m = true → hasComp ent₁ m = true := by
            intro m hmt hm
            rw [hent₁]
            split
            · exact hasComp_eraseComp_of ent t.name m hmt hm
            · exact hm
          split at h
          next hcond =>
            simp only [Except.ok.injEq, Prod.mk.injEq] at h
            obtain ⟨he, _⟩ := h
            subst he
            refine ⟨h₁id, h₁tags, ?_⟩
            intro m hm
            by_cases hinner : (inner == some "instantiating") = true
            · rw [hent₁, if_pos hinner] at hcond
              rw [hasComp_eraseComp_self] at hcond
              exact absurd hcond (by simp)
            · rw [hent₁, if_neg hinner]
              exact hm
          next hcond =>
            split at h
            · exact absurd h (by simp)
            next ent₂ hreq =>
              simp only [Except.ok.injEq, Prod.mk.injEq] at h
              obtain ⟨he, _⟩ := h
              subst he
              obtain ⟨h₂id, h₂tags, h₂pres⟩ := ih.2 inner creg ent₁ t.requires ent₂ hreq
              refine ⟨?_, ?_, ?_⟩
              · rw [id_bindReference, id_setComp, h₂id, h₁id]
              · calc (bindReference (setComp ent₂ t st) t).tags
                    = ent₂.tags := rfl
                  _ = ent₁.tags := h₂tags
                  _ = ent.tags := h₁tags
              · intro m hm
                rw [hasComp_bindReference, hasComp_setComp]
                by_cases hmt : m = t.name
                · simp [hmt]
                · simp [h₂pres m (h₁pres m hmt hm)]
      have hQ : ∀ rs inner creg ent ent',
          addRequires (f + 1) inner creg ent rs = .ok ent' →
          ent'.id = ent.id ∧ ent'.tags = ent.tags ∧
            ∀ m, hasComp ent m = true → hasComp ent' m = true := by
        intro rs
        induction rs with
        | nil =>
            intro inner creg ent ent' h
            simp only [addRequires, addRequiresWith, Except.ok.injEq] at h
            subst h
            exact ⟨rfl, rfl, fun m hm => hm⟩
        | cons r rs ihr =>
            intro inner creg ent ent' h
            simp only [addRequires, addRequiresWith] at h
            split at h
            · exact absurd h (by simp)
            next ent₁ b₁ hac =>
              obtain ⟨hid1, htags1, hpres1⟩ := hP inner creg ent (.byName r) ent₁ b₁ hac
              obtain ⟨hid2, htags2, hpres2⟩ := ihr inner creg ent₁ ent' h
              exact ⟨hid2.trans hid1, htags2.trans htags1,
                fun m hm => hpres2 m (hpres1 m hm)⟩
      exact ⟨hP, fun inner creg ent rs ent' h => hQ rs inner creg ent ent' h⟩

/-- A successful `addComponent` leaves the resolved type attached:
either it was (still) attached (the `false` no-op return), or it has
just been stored. -/
theorem addComponent_attaches (fuel : Nat) (inner : Option String)
    (creg : CompRegistry) (ent : Entity) (n : String) (t : CompType) (st : Int)
    (ent' : Entity) (b : Bool)
    (hres : resolveInstance creg (.byName n) = .ok (t, st))
    (h : addComponent fuel inner creg ent (.byName n) = .ok (ent', b)) :
    hasComp ent' t.name = true := by
  cases fuel with
  | zero => simp [addComponent] at h
  | succ f =>
      simp only [addComponent] at h
      rw [hres] at h
      split at h
      · exact absurd h (by simp)
      next t2 st2 heq =>
        simp only [Except.ok.injEq, Prod.mk.injEq] at heq
        obtain ⟨ht, hst⟩ := heq
        subst ht
        subst hst
        set ent₁ := if (inner == some "instantiating") = true
            then eraseComp ent t.name else ent with hent₁
        split at h
        next hcond =>
          simp only [Except.ok.injEq, Prod.mk.injEq] at h
          obtain ⟨he, _⟩ := h
          subst he
          exact hcond
        next hcond =>
          split at h
          · exact absurd h (by simp)
          next ent₂ hreq =>
            simp only [Except.ok.injEq, Prod.mk.injEq] at h
            obtain ⟨he, _⟩ := h
            subst he
            rw [hasComp_bindReference, hasComp_setComp]
            simp

/-- After a successful `addRequires`, every requirement of the list is
attached, under its registry-resolved type name. -/
theorem addRequires_attaches (fuel : Nat) (inner : Option String)
    (creg : CompRegistry) : ∀ (rs : List String) (ent ent' : Entity) (r : String),
    addRequires fuel inner creg ent rs = .ok ent' → r ∈ rs →
    ∃ t, lookupComp creg r = some t ∧ hasComp ent' t.name = true := by
  intro rs
  induction rs with
  | nil => intro ent ent' r _ hmem; exact absurd hmem (by simp)
  | cons r' rs ihr =>
      intro ent ent' r h hmem
      simp only [addRequires, addRequiresWith] at h
      split at h
      · exact absurd h (by simp)
      next ent₁ b₁ hac =>
        rcases List.mem_cons.mp hmem with hr | hr
        · subst hr
          have hresolve : ∃ t, lookupComp creg r = some t ∧
              resolveInstance creg (.byName r) = .ok (t, t.defaultState) := by
            cases hlk : lookupComp creg r with
            | none =>
                cases fuel with
                | zero => simp [addComponent] at hac
                | succ f =>
                    simp only [addComponent] at hac
                    rw [show resolveInstance creg (.byName r) = .error .notComponent
                      from by simp [resolveInstance, hlk]] at hac
                    exact absurd hac (by simp)
            | some t => exact ⟨t, rfl, by simp [resolveInstance, hlk]⟩
          obtain ⟨t, hlk, hres⟩ := hresolve
          refine ⟨t, hlk, ?_⟩
          have h1 : hasComp ent₁ t.name = true :=
            addComponent_attaches fuel inner creg ent r t t.defaultState ent₁ b₁ hres hac
          exact ((addComponent_addRequires_preserve fuel).2 inner creg ent₁ rs ent' h).2.2
            t.name h1
        · exact ihr ent₁ ent' r h hr

theorem tagsFold_id (l : List String) : ∀ (e : Entity),
    (l.foldl (fun e t => (tag e t).1) e).id = e.id := by
  induction l with
  | nil => intro e; rfl
  | cons t l ih => intro e; rw [List.foldl_cons, ih, id_tag]

theorem addComps_id (fuel : Nat) (inner : Option String) (creg : CompRegistry) :
    ∀ (cs : List CompRef) (e e' : Entity),
    addComps fuel inner creg e cs = .ok e' → e'.id = e.id := by
  intro cs
  induction cs with
  | nil =>
      intro e e' h
      simp only [addComps, Except.ok.injEq] at h
      rw [h]
  | cons c cs ih =>
      intro e e' h
      simp only [addComps] at h
      split at h
      · exact absurd h (by simp)
      next e₁ b₁ hac =>
        rw [ih e₁ e' h,
          ((addComponent_addRequires_preserve fuel).1 inner creg e c e₁ b₁ hac).1]

theorem desComps_id (fuel : Nat) (inner : Option String) (creg : CompRegistry) :
    ∀ (l : List (String × Option Int)) (e e' : Entity),
    desComps fuel inner creg e l = .ok e' → e'.id = e.id := by
  intro l
  induction l with
  | nil =>
      intro e e' h
      simp only [desComps, Except.ok.injEq] at h
      rw [h]
  | cons p l ih =>
      intro e e' h
      simp only [desComps] at h
      split at h
      · exact absurd h (by simp)
      next t hlk =>
        split at h
        · exact absurd h (by simp)
        next f hdes =>
          split at h
          · exact absurd h (by simp)
          next e₁ b₁ hac =>
            rw [ih e₁ e' h,
              ((addComponent_addRequires_preserve fuel).1 inner creg e _ e₁ b₁ hac).1]

/-- Facts about a successful constructor run: the entity carries the
requested id, and the requested id was free beforehand (the
`ObjectIDConflict` check passed before any mutation). -/
theorem construct_ok (fuel : Nat) (inner : Option String) (creg : CompRegistry)
    (reg : GORegistry) (id : String) (opts : GOOptions) (reg' : GORegistry) (ent : Entity)
    (h : construct fuel inner creg reg id opts = .ok (reg', ent)) :
    ent.id = id ∧ lookupGO reg id = none := by
  simp only [construct] at h
  by_cases hlk : (lookupGO reg id).isSome
  · rw [if_pos hlk] at h
    exact absurd h (by simp)
  · rw [if_neg hlk] at h
    split at h
    · exact absurd h (by simp)
    next ent₂ hac =>
      simp only [Except.ok.injEq, Prod.mk.injEq] at h
      obtain ⟨_, he⟩ := h
      subst he
      refine ⟨?_, Option.not_isSome_iff_eq_none.mp hlk⟩
      rw [addComps_id fuel inner creg _ _ _ hac, tagsFold_id]

/-- Facts about a successful `GameObject.deserializer` run: the entity
carries the serialized id, which was unregistered beforehand. -/
theorem deserializer_ok (fuel : Nat) (inner : Option String) (creg : CompRegistry)
    (reg : GORegistry) (d : SerEntity) (reg' : GORegistry) (ent : Entity)
    (h : deserializer fuel inner creg reg d = .ok (reg', ent)) :
    ent.id = d.id ∧ lookupGO reg d.id = none := by
  simp only [deserializer] at h
  split at h
  · exact absurd h (by simp)
  next reg₁ ent₁ hcon =>
    split at h
    · exact absurd h (by simp)
    next ent₂ hdes =>
      simp only [Except.ok.injEq, Prod.mk.injEq] at h
      obtain ⟨_, he⟩ := h
      subst he
      obtain ⟨hid₁, hfree⟩ := construct_ok fuel inner creg reg d.id _ reg₁ ent₁ hcon
      exact ⟨(desComps_id fuel inner creg d.comps ent₁ ent₂ hdes).trans hid₁, hfree⟩

end GameObject

/-- The workhorse behind the amended C4: when `instantiate` is called on
a registered template whose snapshot id is `b` and whose counter is `k`,
and the call returns normally, then it returns an entity whose id is
`b + '__i' + k`, tagged with the template provenance marker; that id was
not registered before the call (in particular it was never issued by an
earlier instantiation, all of which register their entity) and is
registered to the new entity afterwards; and the template record is left
with its snapshot id restored to `b` and only its counter advanced. -/
theorem instantiate_spec (fuel : Nat) (s : RState) (n b : String) (k : Nat)
    (tpl : Template) (s' : RState) (r : TemplateModule.InstResult)
    (htpl : lookupTpl s.templates n = some tpl)
    (hid : tpl.serialized.id = b)
    (hk : tpl.instances = k)
    (hok : TemplateModule.instantiate fuel s n = .ok (s', r)) :
    ∃ e, r = .entity e ∧
      e.id = b ++ "__i" ++ natStr k ∧
      GameObject.isTagged e ("TEMPLATE:" ++ n) = true ∧
      lookupGO s.reg e.id = none ∧
      lookupGO s'.reg e.id = some e ∧
      lookupTpl s'.templates n = some { tpl with instances := k + 1 } := by
  subst hid
  subst hk
  simp only [TemplateModule.instantiate] at hok
  rw [htpl] at hok
  split at hok
  next heq => exact absurd heq (by simp)
  next tpl₂ heq =>
    simp only [Option.some.injEq] at heq
    subst heq
    split at hok
    · exact absurd hok (by simp)
    next reg₁ inst hds =>
      simp only [Except.ok.injEq, Prod.mk.injEq] at hok
      obtain ⟨hs', hr⟩ := hok
      subst hs'
      subst hr
      obtain ⟨hdid, hfree⟩ := GameObject.deserializer_ok _ _ _ _ _ _ _ hds
      simp only at hdid
      refine ⟨(GameObject.tag inst ("TEMPLATE:" ++ n)).1, rfl, ?_, ?_, ?_, ?_, ?_⟩
      · rw [GameObject.id_tag, hdid]
      · exact GameObject.isTagged_tag_self _ _
      · rw [GameObject.id_tag, hdid]
        simpa using hfree
      · simp only [GameObject.id_tag]
        exact lookupGO_setGO _ _ _
      · simp only [lookupTpl_setTpl, stripInstanceSuffix_mangle, Option.some.injEq]

/-- The loop of `off` throws a `TypeError` when it reaches a listener
whose callback matches and no options object was passed (the `&&` chain
dereferences `options.owner` as soon as `listener.callback === callback`
holds). -/
theorem offFilter_none_throws (cb : Nat) : ∀ (ls : List Listener) (l : Listener),
    l ∈ ls → l.callback = cb →
    (EventModule.offFilter cb none ls).2 = some .typeError := by
  intro ls
  induction ls with
  | nil => intro l hmem _; exact absurd hmem (by simp)
  | cons l' ls ih =>
      intro l hmem hcb
      by_cases hl' : l'.callback = cb
      · simp [EventModule.offFilter, hl']
      · have hb : (l'.callback == cb) = false := by
          simp [hl']
        rcases List.mem_cons.mp hmem with hr | hr
        · exact absurd (hr ▸ hcb) hl'
        · simp only [EventModule.offFilter, hb, Bool.false_eq_true, if_false]
          exact ih l hr hcb

/-! ## Claim theorems -/

/-- C1.  The claim states that after `EventModule.on(p, c, o)` returns, a
listener record is stored under the literal key `p` and a subsequent
`emit` of `p` invokes `c`, both when `p` is fresh and when a listener
set already exists under `p`.  The code does neither: on a fresh key the
statement `this.#listeners.get(event) ?? this.#listeners.set(event, new Set()).add({...})`
stores an *empty* set and then throws a `TypeError` (`.add` is invoked
on the `Map` returned by `set`, not on the new `Set`); on an existing
key the `??` short-circuits, so `.add` is never evaluated and nothing is
stored, and the subsequent `emit` invokes nothing. -/
theorem on_never_registers :
    EventModule.jsOn [] "greet" 1 {} = ([("greet", [])], some .typeError) ∧
    EventModule.jsOn [("greet", [])] "greet" 2 {} = ([("greet", [])], none) ∧
    EventModule.emit [("greet", [])] "greet" = ([], none) :=
  ⟨rfl, rfl, rfl⟩

/-- C2.  The claim states that `emitPropertyEvents({object, property,
previous, current})` emits `'<property>.set'`, then `.changed`/`.changed.not`,
then numeric/boolean derived events with exactly those names.  On the
failing input `property = "p"`, `previous = true`, `current = false` the
code instead emits `undefinedp.set`, `undefinedp.changed` and
`undefinedp.decreased` — the absent `prefix` parameter is stringified as
`"undefined"` inside the template literal, the `decreased` check sits
outside the numeric type guard (`false < true` holds by `ToNumber`
coercion), and the boolean `toggled` branch is the `else` of that
misplaced check, so no toggled event fires. -/
theorem emitPropertyEvents_bool_decrease :
    EventModule.emitPropertyEvents "p" (.bool true) (.bool false) none =
      ["undefinedp.set", "undefinedp.changed", "undefinedp.decreased"] :=
  rfl

/-- C3.  The claim states the wildcard grammar (`*` one non-empty
segment, `**` zero or more) and that every listener whose pattern
matches the emitted name is invoked exactly once.  The code disagrees
twice: (1) `emit` returns before any wildcard matching unless some entry
exists under the exact literal event name, so the sole listener
registered under `stats.*.changed` is never invoked for
`stats.health.changed`; (2) a pattern containing `**` passes both the
`'**'` and the `'*'` `includes` tests and both regexes match, so its
listeners are appended to the dispatch list twice and invoked twice. -/
theorem wildcard_dispatch_broken :
    EventModule.emit [("stats.*.changed", [starListener])] "stats.health.changed" =
      ([], none) ∧
    EventModule.emit [("stats.health.changed", []), ("stats.**.changed", [dstarListener])]
      "stats.health.changed" = ([7, 7], none) :=
  ⟨rfl, rfl⟩

/-- C4 (counterexample).  The claim states that the `k`-th call to
`instantiate(n)` *returns* an entity with id `base + '__i' + k`.  With
an entity already registered under `rock__i0` (here placed directly in
the registry; the same state arises from a second template sharing the
base id `rock`), the 0-th instantiation of `t` does not return an
entity: the deserializer's constructor throws `ObjectIDConflict`. -/
theorem instantiate_conflict_counterexample :
    TemplateModule.instantiate 9 sConflict "t" = .error .objectIDConflict :=
  rfl

/-- C4 (witness for the amended claim): instantiating `t` from `sTpl`
returns the entity `rock__i0`, tagged `TEMPLATE:t`, with the snapshot id
restored and the counter advanced. -/
theorem instantiate_spec_witness :
    ∃ s' r, TemplateModule.instantiate 9 sTpl "t" = .ok (s', r) ∧
      ∃ e, r = .entity e ∧
        e.id = "rock" ++ "__i" ++ natStr 0 ∧
        GameObject.isTagged e ("TEMPLATE:" ++ "t") = true ∧
        lookupGO sTpl.reg e.id = none ∧
        lookupGO s'.reg e.id = some e ∧
        lookupTpl s'.templates "t" = some { rockTpl with instances := 0 + 1 } :=
  ⟨_, _, rfl, instantiate_spec 9 sTpl "t" "rock" 0 rockTpl _ _ rfl rfl rfl rfl⟩

/-- C5.  The claim states `serialize(deserialize(serialize(E)))` is
structurally equal to `serialize(E)` whenever every attached component
defines both a serializer and a deserializer.  For the unregistered
entity `entC` (one such component, instance state `42`, default `0`),
the round trip yields serialized component data `0` instead of `42`:
the deserializer's constructor attaches a default-state instance, and
the subsequent `addComponent` of the rebuilt instance is a `false`
no-op outside the `'instantiating'` runtime state, discarding the
deserialized data.  (For a *registered* `E` the round trip does not even
return — the constructor throws `ObjectIDConflict`.) -/
theorem roundtrip_failure :
    (GameObject.deserializer 9 (innerGet ["initializing"]) cregC []
        (GameObject.serializer entC)).map (fun p => GameObject.serializer p.2) =
      .ok { cls := "GameObject", id := "e1", tags := [], comps := [("Cnt", some 0)] } ∧
    GameObject.serializer entC =
      { cls := "GameObject", id := "e1", tags := [], comps := [("Cnt", some 42)] } :=
  ⟨rfl, rfl⟩

/-- C6.  The claim states `pop(labels)` counts a failure for each absent
label and returns the total, never throwing.  The code increments the
counter for an absent label but then unconditionally evaluates
`this.#context[label].length`, reading `length` of `undefined`: popping
`['agent', 'ghost']` removes the top of `agent` (the mutation persists)
and then throws a `TypeError` on `ghost` instead of returning `1`;
popping `['ghost']` on an empty context throws likewise. -/
theorem pop_absent_throws :
    ContextModule.pop [("agent", [.str "alice", .str "bob"])] ["agent", "ghost"] =
      ([("agent", [.str "bob"])], 1, some .typeError) ∧
    ContextModule.pop [] ["ghost"] = ([], 1, some .typeError) :=
  ⟨rfl, rfl⟩

/-- C7.  Constructing a `GameObject` under an id that is already
registered throws `ObjectIDConflict`, for every registry, component
registry, runtime state and (well-typed) options object.  The conflict
check precedes every mutation in the constructor, so the failed
construction leaves the registry — and hence the previously registered
entity — untouched (in this embedding, state changes only through
returned values, and an error returns none). -/
theorem duplicate_id_conflict (fuel : Nat) (inner : Option String)
    (creg : CompRegistry) (reg : GORegistry) (s : String) (opts : GameObject.GOOptions)
    (e : Entity) (h : lookupGO reg s = some e) :
    GameObject.construct fuel inner creg reg s opts = .error .objectIDConflict := by
  simp only [GameObject.construct, h]
  rfl

/-- C7 witness: a second construction under the registered id `x`
throws. -/
theorem duplicate_id_conflict_witness :
    GameObject.construct 5 none cregC [("x", entX)] "x" {} = .error .objectIDConflict :=
  duplicate_id_conflict 5 none cregC [("x", entX)] "x" {} entX rfl

/-- C8.  If component type `A` (registered under name `a`) declares a
dependency registered under name `bn`, and `A` is not attached to the
entity, then after a *normally returning* `addComponent` call both
`hasComponent(A)` and `hasComponent(B)` hold: the dependency loop
attaches every requirement (recursively, through the same algorithm)
before `A` itself is stored, and nothing later removes them.  (A call
that throws or never terminates — e.g. on a cyclic dependency graph,
modelled by fuel exhaustion — returns no `.ok` and is not covered by
the claim, which speaks about the state after the call returns.) -/
theorem requires_attached (fuel : Nat) (inner : Option String)
    (creg : CompRegistry) (ent : Entity) (a bn : String) (tA : CompType)
    (ent' : Entity) (res : Bool)
    (hA : lookupComp creg a = some tA)
    (hmem : bn ∈ tA.requires)
    (hnot : GameObject.hasComp ent tA.name = false)
    (h : GameObject.addComponent fuel inner creg ent (.byName a) = .ok (ent', res)) :
    GameObject.hasComponent creg ent' (.byName a) = .ok true ∧
    GameObject.hasComponent creg ent' (.byName bn) = .ok true := by
  cases fuel with
  | zero => simp [GameObject.addComponent] at h
  | succ f =>
      simp only [GameObject.addComponent] at h
      rw [show GameObject.resolveInstance creg (.byName a) = .ok (tA, tA.defaultState)
        from by simp [GameObject.resolveInstance, hA]] at h
      split at h
      · exact absurd h (by simp)
      next t2 st2 heq =>
        simp only [Except.ok.injEq, Prod.mk.injEq] at heq
        obtain ⟨ht, hst⟩ := heq
        subst ht
        subst hst
        set ent₁ := if (inner == some "instantiating") = true
            then GameObject.eraseComp ent tA.name else ent with hent₁
        have h₁not : GameObject.hasComp ent₁ tA.name = false := by
          rw [hent₁]
          split
          · exact GameObject.hasComp_eraseComp_self ent tA.name
          · exact hnot
        split at h
        next hcond => rw [h₁not] at hcond; exact absurd hcond (by simp)
        next hcond =>
          split at h
          · exact absurd h (by simp)
          next ent₂ hreq =>
            simp only [Except.ok.injEq, Prod.mk.injEq] at h
            obtain ⟨he, _⟩ := h
            subst he
            obtain ⟨tB, hlkB, hB⟩ :=
              GameObject.addRequires_attaches f inner creg tA.requires ent₁ ent₂ bn hreq hmem
            constructor
            · simp only [GameObject.hasComponent, hA, GameObject.hasComp_bindReference,
                GameObject.hasComp_setComp]
              simp
            · simp only [GameObject.hasComponent, hlkB, GameObject.hasComp_bindReference,
                GameObject.hasComp_setComp]
              simp [hB]

/-- C8 witness: attaching `A` (which requires `B`) to the fresh entity
`entX` attaches both. -/
theorem requires_attached_witness :
    GameObject.hasComponent cregAB entXAB (.byName "A") = .ok true ∧
    GameObject.hasComponent cregAB entXAB (.byName "B") = .ok true :=
  requires_attached 5 none cregAB entX "A" "B" depA entXAB true rfl (by decide) rfl rfl

/-- C9.  The claim states listeners are snapshotted before dispatch and
every `once` listener is removed from the listener table immediately
after it fires.  The snapshot part holds (`Array.from` plus appends),
but after a `once` listener fires the code calls
`listeners.delete(listener)` on that snapshot *array* — arrays have no
`delete` method — so the dispatch loop throws a `TypeError` right after
the first `once` listener runs, and the listener table (never touched by
`emit`) still contains the listener: an identical later `emit` invokes
it again. -/
theorem once_listener_broken :
    EventModule.emit [("a", [onceListener])] "a" = ([3], some .typeError) :=
  rfl

/-- C10 (counterexample).  The claim states that `off(p, c)` with no
options argument throws a `TypeError` whenever at least one listener is
stored under `p`, the options object being dereferenced unconditionally.
It is not: `options` is only dereferenced after
`listener.callback === callback` succeeds, so with a listener whose
callback (token `5`) differs from the argument (token `9`) the call
completes normally, removing nothing and returning `0`. -/
theorem off_no_options_counterexample :
    EventModule.off [("p", [plainListener])] "p" 9 none =
      ([("p", [plainListener])], .removed 0, none) :=
  rfl

/-- C10 (amended).  `off(p, c)` with no options argument throws a
`TypeError` as soon as some listener stored under `p` has callback `c`
(the filter dereferences `options.owner` once the callback identity
matches); with no callback-matching listener it instead returns the
count `0` without touching `options`. -/
theorem off_no_options_throws (tbl : ListenerTable) (p : String) (cb : Nat)
    (ls : List Listener) (l : Listener)
    (hlk : EventModule.lookup tbl p = some ls) (hmem : l ∈ ls) (hcb : l.callback = cb) :
    (EventModule.off tbl p cb none).2.2 = some .typeError := by
  simp only [EventModule.off, hlk]
  exact offFilter_none_throws cb ls l hmem hcb

/-- C10 witness: `off` with no options and a callback-matching listener
under `p` throws. -/
theorem off_no_options_throws_witness :
    (EventModule.off [("p", [plainListener])] "p" 5 none).2.2 = some .typeError :=
  off_no_options_throws [("p", [plainListener])] "p" 5 [plainListener] plainListener
    rfl (by decide) rfl

end RasPG
